import Mathlib

/-!
Verification of the rule-mining and recommendation pipeline of the
market-basket-analysis repository (`src/analyzer.py`, `src/recommender.py`,
`src/config.py`).

Modelling conventions:
* Numeric columns (supports, confidence, lift, Zhang's metric) are exact
  rationals; the Python code computes with binary floats, and the concrete
  scenarios below involve only values where the two agree.
* A pandas DataFrame is modelled as a list of structure values in row order.
  Boolean-mask filtering (`df[mask]`) keeps row order and is `List.filter`.
* `frozenset` fields are modelled as lists of labels; subset tests and
  membership tests are the corresponding list predicates.  No settled claim
  depends on the iteration order of a `frozenset`.
* `DataFrame.sort_values(col, ascending=False)` with the default
  `kind="quicksort"` is modelled after pandas' implementation
  (`pandas.core.sorting.nargsort`): an ascending argsort followed by a
  reversal of the index array.  On the small frames appearing in the concrete
  scenarios numpy's introsort is an insertion sort, which is stable, so the
  model is an ascending stable insertion sort followed by `List.reverse`.
  Consequently rows with tied keys emerge in reversed original order, which
  is exactly what pandas produces for small frames (only
  `kind="mergesort"`/`"stable"` are stable, and the reversal flips ties).
* `DataFrame.drop_duplicates(subset=["item"])` keeps the first occurrence of
  each key, modelled by a keep-first deduplication.
-/

/-- Association rule row: the columns of the rules DataFrame produced by
rule generation (`antecedent support`, `consequent support`, `support`,
`confidence`, `lift`) together with the `zhangs_metric` column added by
`Analyzer._add_zhangs_metric` (0 until that stage runs). -/
structure Rule where
  antecedents : List String
  consequents : List String
  antecedent_support : ℚ
  consequent_support : ℚ
  support : ℚ
  confidence : ℚ
  lift : ℚ
  zhangs_metric : ℚ
  deriving DecidableEq, Repr

/-- Recommendation row built by `Recommender.recommend`: the source stores a
human-readable string `"{antecedents} → {consequents}"` in the `rule` column;
as Python set printing order is unspecified we model that column by the
originating (antecedents, consequents) pair. -/
structure RecRow where
  item : String
  confidence : ℚ
  lift : ℚ
  zhangs_metric : ℚ
  rule : List String × List String
  deriving DecidableEq, Repr

/-- Threshold `APRIORI_MIN_SUPPORT = 0.01` from `src/config.py` (the pipeline
model below takes `min_support` as a parameter, as §7 quantifies over invalid
values of this setting). -/
def APRIORI_MIN_SUPPORT : ℚ := 1/100

/-- Threshold `APRIORI_MIN_CONFIDENCE = 0.60` from `src/config.py`. -/
def APRIORI_MIN_CONFIDENCE : ℚ := 3/5

/-- Threshold `APRIORI_MIN_LIFT = 1.0` from `src/config.py`. -/
def APRIORI_MIN_LIFT : ℚ := 1

/-- Threshold `APRIORI_MIN_ZHANG = 0.0` from `src/config.py`. -/
def APRIORI_MIN_ZHANG : ℚ := 0

/-- Generation-time threshold `APRIORI_MIN_THRESHOLD = 0.1` from
`src/config.py`, applied to the metric `APRIORI_METRIC = "lift"`. -/
def APRIORI_MIN_THRESHOLD : ℚ := 1/10

/-- Default `RECOMMENDER_TOP_N = 5` from `src/config.py`. -/
def RECOMMENDER_TOP_N : ℕ := 5

/-- Default `RECOMMENDER_MIN_CONFIDENCE = 0.6` from `src/config.py`. -/
def RECOMMENDER_MIN_CONFIDENCE : ℚ := 3/5

/-- Round half to even on integers scaled by `10^4`: the tie-breaking rule of
Python's built-in `round`. -/
def roundHalfEven (q : ℚ) : ℤ :=
  let f := ⌊q⌋
  let r := q - (f : ℚ)
  if r < 1/2 then f
  else if 1/2 < r then f + 1
  else if f % 2 = 0 then f else f + 1

/-- Python's `round(x, 4)` on the exact rational value of `x`, as used by
`Recommender.recommend` on the confidence, lift and zhangs_metric columns. -/
def round4 (q : ℚ) : ℚ := (roundHalfEven (q * 10000) : ℚ) / 10000

/-- Zhang's metric of `Analyzer._add_zhangs_metric` (analyzer.py:306-324):
`numerator = p_ab - p_a*p_b`, `denominator = max(p_ab*(1-p_a),
p_a*(p_b-p_ab))`, and `np.where(denominator == 0, 0, numerator/denominator)`. -/
def zhangsMetric (pA pB pAB : ℚ) : ℚ :=
  let numerator := pAB - pA * pB
  let denominator := max (pAB * (1 - pA)) (pA * (pB - pAB))
  if denominator = 0 then 0 else numerator / denominator

/-- `Analyzer._add_zhangs_metric` (analyzer.py:274-332): adds the
`zhangs_metric` column computed row-wise from the `antecedent support`,
`consequent support` and `support` columns. -/
def addZhangsMetric (rules : List Rule) : List Rule :=
  rules.map fun r =>
    { r with zhangs_metric :=
        zhangsMetric r.antecedent_support r.consequent_support r.support }

/-- `Analyzer._filter_rules` (analyzer.py:357-361): keeps the rows with
`confidence >= APRIORI_MIN_CONFIDENCE`, `lift > APRIORI_MIN_LIFT` and
`zhangs_metric > APRIORI_MIN_ZHANG`. -/
def filterRules (rules : List Rule) : List Rule :=
  rules.filter fun r =>
    decide (APRIORI_MIN_CONFIDENCE ≤ r.confidence) &&
    decide (APRIORI_MIN_LIFT < r.lift) &&
    decide (APRIORI_MIN_ZHANG < r.zhangs_metric)

/-- Ascending comparison on the `zhangs_metric` column. -/
def zhangLe (a b : Rule) : Prop := a.zhangs_metric ≤ b.zhangs_metric

instance : DecidableRel zhangLe :=
  fun a b => inferInstanceAs (Decidable (a.zhangs_metric ≤ b.zhangs_metric))

instance : IsTotal Rule zhangLe :=
  ⟨fun a b => le_total a.zhangs_metric b.zhangs_metric⟩

instance : IsTrans Rule zhangLe :=
  ⟨fun _ _ _ h1 h2 => le_trans h1 h2⟩

/-- Step 5 of `Analyzer.run` (analyzer.py:144-146):
`sort_values("zhangs_metric", ascending=False)` with the default quicksort
kind — pandas performs an ascending argsort and reverses the index array
(see the module docstring). -/
def sortByZhangDesc (rules : List Rule) : List Rule :=
  (List.insertionSort zhangLe rules).reverse

/-- Support of an itemset: the fraction of transactions containing every
label of the set (spec §3 "Itemset"; a transaction is the list of labels
whose one-hot column holds true in that row). -/
def itemsetSupport (tx : List (List String)) (s : List String) : ℚ :=
  if tx.length = 0 then 0
  else (tx.countP (fun t => s.all (fun i => decide (i ∈ t))) : ℚ) / (tx.length : ℚ)

/-- Distinct item labels of the transaction collection (the columns of the
one-hot matrix). -/
def allItems (tx : List (List String)) : List String :=
  (tx.foldr (fun t acc => t ++ acc) []).dedup

/-- Modelled from the spec: `mlxtend.frequent_patterns.apriori` is not part
of this repository; §4.2's contract — the set of (itemset, support) pairs
over the matrix's labels with support ≥ min_support, for every nonempty
itemset size (the level-wise pruning of §4.2 is an enumeration strategy with
exactly this output, by the anti-monotonicity invariant of §3). -/
def apriori (tx : List (List String)) (minSupport : ℚ) : List (List String × ℚ) :=
  (((allItems tx).sublists).filter
      (fun s => !s.isEmpty && decide (minSupport ≤ itemsetSupport tx s))).map
    (fun s => (s, itemsetSupport tx s))

/-- Support lookup of a sub-itemset among the mined (itemset, support)
pairs (0 if absent; anti-monotonicity guarantees presence for the splits of
a frequent itemset). -/
def lookupSupport (itemsets : List (List String × ℚ)) (s : List String) : ℚ :=
  ((itemsets.find? (fun p => decide (p.1 = s))).map (fun p => p.2)).getD 0

/-- Modelled from the spec: all antecedent→consequent splits of one frequent
itemset per §4.3 — every nonempty proper sub-itemset as antecedent, the
complement as consequent, with `support` the itemset support,
`antecedent_support`/`consequent_support` looked up, `confidence =
support/antecedent_support`, `lift = confidence/consequent_support`, kept
when the generation-time metric (lift) reaches `APRIORI_MIN_THRESHOLD`. -/
def antecedentSplits (itemsets : List (List String × ℚ))
    (s : List String) (sup : ℚ) : List Rule :=
  (s.sublists.filter
      (fun a => !a.isEmpty && decide (a.length < s.length))).filterMap (fun a =>
    let c := s.filter (fun i => !decide (i ∈ a))
    let aSup := lookupSupport itemsets a
    let cSup := lookupSupport itemsets c
    let conf := sup / aSup
    let lft := conf / cSup
    if APRIORI_MIN_THRESHOLD ≤ lft then
      some { antecedents := a, consequents := c, antecedent_support := aSup,
             consequent_support := cSup, support := sup, confidence := conf,
             lift := lft, zhangs_metric := 0 }
    else none)

/-- Helper for `generateRules`: splits every itemset of size ≥ 2, in
enumeration order. -/
def generateRulesAux (itemsets : List (List String × ℚ)) :
    List (List String × ℚ) → List Rule
  | [] => []
  | (s, sup) :: rest =>
      (if s.length < 2 then [] else antecedentSplits itemsets s sup) ++
        generateRulesAux itemsets rest

/-- Modelled from the spec: `mlxtend.frequent_patterns.association_rules`
(called by `Analyzer._generate_rules`, analyzer.py:263-268) is not part of
this repository; §4.3's contract — every valid split of every frequent
itemset of size ≥ 2. -/
def generateRules (itemsets : List (List String × ℚ)) : List Rule :=
  generateRulesAux itemsets itemsets

/-- `Analyzer.run` (analyzer.py:109-155) with the spec-modelled mining steps:
frequent itemsets, rule generation, Zhang's metric, filtering, sort by
`zhangs_metric` descending.  Threshold validation is modelled from the spec
(§4.2 requires `0 < min_support ≤ 1` and §7 classifies `min_support ≤ 0 or
> 1` as configuration errors that fail fast at pipeline start); the error
surfaces as an `Except.error` before any mining work. -/
def Analyzer.run (tx : List (List String)) (minSupport : ℚ) :
    Except String (List Rule) :=
  if minSupport ≤ 0 ∨ 1 < minSupport then
    Except.error "min_support must be a positive number within the interval (0, 1]"
  else
    Except.ok (sortByZhangDesc (filterRules (addZhangsMetric
      (generateRules (apriori tx minSupport)))))

/-- Matching test of `Recommender.recommend` (recommender.py:141-146): the
rule's antecedent frozenset is a subset of the basket set and its (unrounded)
confidence is at least the query's `min_confidence`. -/
def ruleMatches (basket : List String) (minConf : ℚ) (r : Rule) : Bool :=
  r.antecedents.all (fun i => decide (i ∈ basket)) && decide (minConf ≤ r.confidence)

/-- One recommendation row (recommender.py:163-172): metric columns are the
rule's values rounded to 4 decimal places. -/
def mkCandidate (r : Rule) (item : String) : RecRow :=
  { item := item, confidence := round4 r.confidence, lift := round4 r.lift,
    zhangs_metric := round4 r.zhangs_metric,
    rule := (r.antecedents, r.consequents) }

/-- Candidate pool of `Recommender.recommend` (recommender.py:157-172): for
each matching rule in row order, one row per consequent item not already in
the basket. -/
def poolConsequents (basket : List String) : List Rule → List RecRow
  | [] => []
  | r :: rs =>
      (r.consequents.filter (fun i => !decide (i ∈ basket))).map (mkCandidate r)
        ++ poolConsequents basket rs

/-- The full candidate list: consequent rows pooled from the matching rules. -/
def recCandidates (rules : List Rule) (basket : List String) (minConf : ℚ) :
    List RecRow :=
  poolConsequents basket (rules.filter (ruleMatches basket minConf))

/-- Ascending comparison on the (rounded) `confidence` column. -/
def confLe (a b : RecRow) : Prop := a.confidence ≤ b.confidence

instance : DecidableRel confLe :=
  fun a b => inferInstanceAs (Decidable (a.confidence ≤ b.confidence))

instance : IsTotal RecRow confLe :=
  ⟨fun a b => le_total a.confidence b.confidence⟩

instance : IsTrans RecRow confLe :=
  ⟨fun _ _ _ h1 h2 => le_trans h1 h2⟩

/-- `rec_df.sort_values("confidence", ascending=False)` (recommender.py:186)
with the default quicksort kind, modelled as for `sortByZhangDesc`. -/
def pandasSortDescConf (rows : List RecRow) : List RecRow :=
  (List.insertionSort confLe rows).reverse

/-- `drop_duplicates(subset=["item"])` (recommender.py:187): keeps the first
row of each item. -/
def dedupByItem : List RecRow → List RecRow
  | [] => []
  | x :: xs => x :: dedupByItem (xs.filter (fun y => !decide (y.item = x.item)))
  termination_by l => l.length
  decreasing_by
    simp only [List.length_cons]
    exact Nat.lt_succ_of_le (List.length_filter_le _ _)

/-- `Recommender.recommend` (recommender.py:97-202): early empty returns for
an empty basket, an empty rule set and no matching rules; a candidate pool
from the matching rules' consequents excluding basket items; then sort by
(rounded) confidence descending, keep-first deduplication by item,
`head(top_n)`.  All empty cases return the same empty list. -/
def recommend (rules : List Rule) (basket : List String) (top_n : ℕ)
    (minConf : ℚ) : List RecRow :=
  if basket.isEmpty then []
  else if rules.isEmpty then []
  else if (rules.filter (ruleMatches basket minConf)).isEmpty then []
  else if (recCandidates rules basket minConf).isEmpty then []
  else
    (dedupByItem (pandasSortDescConf (recCandidates rules basket minConf))).take top_n

deriving instance DecidableEq for Except

/-! ### Basic lemmas about the embedded operations -/

/-- Membership is unchanged by the descending zhang sort (it permutes). -/
lemma mem_sortByZhangDesc {r : Rule} {l : List Rule} :
    r ∈ sortByZhangDesc l ↔ r ∈ l := by
  rw [sortByZhangDesc, List.mem_reverse]
  exact (List.perm_insertionSort zhangLe l).mem_iff

/-- The descending zhang sort emits rows non-increasing in `zhangs_metric`. -/
lemma sortByZhangDesc_pairwise (l : List Rule) :
    (sortByZhangDesc l).Pairwise
      (fun a b => b.zhangs_metric ≤ a.zhangs_metric) := by
  rw [sortByZhangDesc, List.pairwise_reverse]
  exact List.sorted_insertionSort zhangLe l

/-- Membership is unchanged by the descending confidence sort. -/
lemma mem_pandasSortDescConf {row : RecRow} {l : List RecRow} :
    row ∈ pandasSortDescConf l ↔ row ∈ l := by
  rw [pandasSortDescConf, List.mem_reverse]
  exact (List.perm_insertionSort confLe l).mem_iff

/-- The descending confidence sort emits rows non-increasing in
`confidence`. -/
lemma pandasSortDescConf_pairwise (l : List RecRow) :
    (pandasSortDescConf l).Pairwise
      (fun a b => b.confidence ≤ a.confidence) := by
  rw [pandasSortDescConf, List.pairwise_reverse]
  exact List.sorted_insertionSort confLe l

/-- Keep-first deduplication picks a sublist of its input. -/
lemma dedupByItem_sublist : ∀ l : List RecRow, (dedupByItem l).Sublist l := by
  intro l
  induction l using dedupByItem.induct with
  | case1 => simp [dedupByItem]
  | case2 x xs ih =>
    rw [dedupByItem]
    exact (ih.trans (List.filter_sublist xs)).cons₂ x

/-- Keep-first deduplication emits pairwise-distinct items. -/
lemma dedupByItem_pairwise :
    ∀ l : List RecRow, (dedupByItem l).Pairwise (fun a b => a.item ≠ b.item) := by
  intro l
  induction l using dedupByItem.induct with
  | case1 => simp [dedupByItem]
  | case2 x xs ih =>
    rw [dedupByItem]
    refine List.Pairwise.cons (fun b hb => ?_) ih
    have hb2 := (dedupByItem_sublist _).subset hb
    have := (List.mem_filter.mp hb2).2
    simp only [Bool.not_eq_eq_eq_not, Bool.not_true, decide_eq_false_iff_not] at this
    exact fun he => this (he ▸ rfl)

/-- On an input that is non-increasing in confidence, keep-first
deduplication keeps, for each item, a row of maximal confidence. -/
lemma dedupByItem_max :
    ∀ (l : List RecRow),
      l.Pairwise (fun a b => b.confidence ≤ a.confidence) →
      ∀ {row c : RecRow}, row ∈ dedupByItem l → c ∈ l → c.item = row.item →
        c.confidence ≤ row.confidence := by
  intro l
  induction l using dedupByItem.induct with
  | case1 => intro _ row c h; simp [dedupByItem] at h
  | case2 x xs ih =>
    intro hp row c hrow hc hitem
    rw [dedupByItem] at hrow
    rcases List.mem_cons.mp hrow with hrx | hrtail
    · subst hrx
      rcases List.mem_cons.mp hc with hcx | hcxs
      · exact le_of_eq (by rw [hcx])
      · exact (List.pairwise_cons.mp hp).1 c hcxs
    · have hrowfilter := (dedupByItem_sublist _).subset hrtail
      have hrowne := (List.mem_filter.mp hrowfilter).2
      simp only [Bool.not_eq_eq_eq_not, Bool.not_true,
        decide_eq_false_iff_not] at hrowne
      rcases List.mem_cons.mp hc with hcx | hcxs
      · exact absurd (hcx ▸ hitem) (fun he => hrowne he.symm)
      · have hcfilter : c ∈ xs.filter (fun y => !decide (y.item = x.item)) := by
          refine List.mem_filter.mpr ⟨hcxs, ?_⟩
          simp only [Bool.not_eq_eq_eq_not, Bool.not_true,
            decide_eq_false_iff_not]
          exact fun he => hrowne (hitem ▸ he)
        have hpfilter :
            (xs.filter (fun y => !decide (y.item = x.item))).Pairwise
              (fun a b => b.confidence ≤ a.confidence) :=
          List.Pairwise.sublist (List.filter_sublist xs)
            ((List.pairwise_cons.mp hp).2)
        exact ih hpfilter hrtail hcfilter hitem

/-- The Bool matching test as a proposition. -/
lemma ruleMatches_iff {basket : List String} {mc : ℚ} {r : Rule} :
    ruleMatches basket mc r = true ↔
      (∀ i ∈ r.antecedents, i ∈ basket) ∧ mc ≤ r.confidence := by
  simp [ruleMatches, List.all_eq_true]

/-- Rows of the candidate pool of a rule list. -/
lemma mem_poolConsequents {basket : List String} {l : List Rule} {row : RecRow} :
    row ∈ poolConsequents basket l ↔
      ∃ r ∈ l, ∃ i, i ∈ r.consequents ∧ i ∉ basket ∧ row = mkCandidate r i := by
  induction l with
  | nil => simp [poolConsequents]
  | cons r rs ih =>
    simp only [poolConsequents, List.mem_append, List.mem_map, List.mem_filter,
      List.mem_cons, ih]
    constructor
    · rintro (⟨i, ⟨hi, hnb⟩, heq⟩ | ⟨r2, hr2, i, hi, hnb, heq⟩)
      · exact ⟨r, Or.inl rfl, i, hi, by simpa using hnb, heq.symm⟩
      · exact ⟨r2, Or.inr hr2, i, hi, hnb, heq⟩
    · rintro ⟨r2, hr2 | hr2, i, hi, hnb, heq⟩
      · exact Or.inl ⟨i, ⟨hr2 ▸ hi, by simpa using hnb⟩, (hr2 ▸ heq).symm⟩
      · exact Or.inr ⟨r2, hr2, i, hi, hnb, heq⟩

/-- Characterization of the candidate pool: exactly the non-basket
consequent items of the rules passing the matching test. -/
lemma mem_recCandidates {rules : List Rule} {basket : List String} {mc : ℚ}
    {row : RecRow} :
    row ∈ recCandidates rules basket mc ↔
      ∃ r ∈ rules, ((∀ i ∈ r.antecedents, i ∈ basket) ∧ mc ≤ r.confidence) ∧
        ∃ i, i ∈ r.consequents ∧ i ∉ basket ∧ row = mkCandidate r i := by
  rw [recCandidates, mem_poolConsequents]
  constructor
  · rintro ⟨r, hr, rest⟩
    have := List.mem_filter.mp hr
    exact ⟨r, this.1, ruleMatches_iff.mp this.2, rest⟩
  · rintro ⟨r, hr, hm, rest⟩
    exact ⟨r, List.mem_filter.mpr ⟨hr, ruleMatches_iff.mpr hm⟩, rest⟩

/-- The result of `recommend` is either one of the empty-case returns or the
truncated, deduplicated, sorted candidate pool. -/
lemma recommend_cases (rules : List Rule) (basket : List String) (top_n : ℕ)
    (mc : ℚ) :
    recommend rules basket top_n mc = [] ∨
    recommend rules basket top_n mc =
      (dedupByItem (pandasSortDescConf
        (recCandidates rules basket mc))).take top_n := by
  rw [recommend]
  split
  · exact Or.inl rfl
  · split
    · exact Or.inl rfl
    · split
      · exact Or.inl rfl
      · split
        · exact Or.inl rfl
        · exact Or.inr rfl

/-- Unfolding of a successful pipeline run. -/
lemma run_ok {tx : List (List String)} {ms : ℚ} {final : List Rule}
    (h : Analyzer.run tx ms = Except.ok final) :
    final = sortByZhangDesc (filterRules (addZhangsMetric
      (generateRules (apriori tx ms)))) := by
  rw [Analyzer.run] at h
  split at h
  · exact absurd h (by simp)
  · exact (Except.ok.injEq _ _).mp h |>.symm

/-! ### Claim C1 — Zhang's metric formula -/

/-- Concrete rule of Scenario B before the Zhang stage
(antecedent_support = 0.5, consequent_support = 0.5, support = 0.4). -/
def c1in : Rule :=
  { antecedents := ["X"], consequents := ["Y"], antecedent_support := 1/2,
    consequent_support := 1/2, support := 2/5, confidence := 4/5,
    lift := 8/5, zhangs_metric := 0 }

/-- Scenario B rule after the Zhang stage (metric 0.75). -/
def c1out : Rule :=
  { antecedents := ["X"], consequents := ["Y"], antecedent_support := 1/2,
    consequent_support := 1/2, support := 2/5, confidence := 4/5,
    lift := 8/5, zhangs_metric := 3/4 }

/-- Claim C1: every rule emitted by the Zhang stage carries an
`association_strength` equal to 0 when
max(P(A∩B)·(1−P(A)), P(A)·(P(B)−P(A∩B))) = 0 and otherwise to
(P(A∩B) − P(A)·P(B)) divided by that maximum, computed from the rule's own
antecedent-support, consequent-support and joint-support columns; and for
P(A)=0.5, P(B)=0.5, P(A∩B)=0.4 the value is 0.75. -/
theorem zhangs_metric_formula :
    (∀ (rules : List Rule) (r : Rule), r ∈ addZhangsMetric rules →
      r.zhangs_metric =
        if max (r.support * (1 - r.antecedent_support))
            (r.antecedent_support * (r.consequent_support - r.support)) = 0
        then 0
        else (r.support - r.antecedent_support * r.consequent_support) /
          max (r.support * (1 - r.antecedent_support))
            (r.antecedent_support * (r.consequent_support - r.support)))
    ∧ zhangsMetric (1/2) (1/2) (2/5) = 3/4 := by
  constructor
  · intro rules r hr
    rw [addZhangsMetric] at hr
    rcases List.mem_map.mp hr with ⟨r0, _, heq⟩
    subst heq
    rfl
  · with_unfolding_all decide

/-- Witness for C1 at the Scenario B rule. -/
theorem zhangs_metric_formula_witness :
    c1out ∈ addZhangsMetric [c1in] ∧
      c1out.zhangs_metric =
        if max (c1out.support * (1 - c1out.antecedent_support))
            (c1out.antecedent_support * (c1out.consequent_support - c1out.support)) = 0
        then 0
        else (c1out.support - c1out.antecedent_support * c1out.consequent_support) /
          max (c1out.support * (1 - c1out.antecedent_support))
            (c1out.antecedent_support * (c1out.consequent_support - c1out.support)) :=
  ⟨by with_unfolding_all decide,
   zhangs_metric_formula.1 [c1in] c1out (by with_unfolding_all decide)⟩

/-! ### Claim C2 — filter soundness of the final Rule Set -/

/-- Probe rule for the C2 witness. -/
def c2r : Rule :=
  { antecedents := ["A"], consequents := ["B"], antecedent_support := 1/2,
    consequent_support := 1/2, support := 2/5, confidence := 4/5,
    lift := 8/5, zhangs_metric := 3/4 }

/-- Claim C2: a rule value belongs to the final Rule Set iff it is a
generated rule (after the Zhang stage) with confidence ≥ min_confidence
(non-strict), lift > min_lift (strict) and zhangs_metric >
min_association_strength (strict); in particular every generated rule
failing one of the three is absent. -/
theorem filter_soundness (tx : List (List String)) (ms : ℚ) (final : List Rule)
    (h : Analyzer.run tx ms = Except.ok final) (r : Rule) :
    r ∈ final ↔
      r ∈ addZhangsMetric (generateRules (apriori tx ms)) ∧
        APRIORI_MIN_CONFIDENCE ≤ r.confidence ∧ APRIORI_MIN_LIFT < r.lift ∧
        APRIORI_MIN_ZHANG < r.zhangs_metric := by
  rw [run_ok h, mem_sortByZhangDesc, filterRules, List.mem_filter]
  simp [and_assoc]

/-- Witness for C2 on a run with valid configuration (one single-item
transaction yields no rules, so membership is equivalent to the filter
conjunction vacuously — the hypotheses of the theorem are discharged at a
concrete, fully evaluated run). -/
theorem filter_soundness_witness :
    Analyzer.run [["A"]] (1/2) = Except.ok [] ∧
      (c2r ∈ ([] : List Rule) ↔
        c2r ∈ addZhangsMetric (generateRules (apriori [["A"]] (1/2))) ∧
          APRIORI_MIN_CONFIDENCE ≤ c2r.confidence ∧
          APRIORI_MIN_LIFT < c2r.lift ∧
          APRIORI_MIN_ZHANG < c2r.zhangs_metric) :=
  ⟨by with_unfolding_all decide,
   filter_soundness [["A"]] (1/2) [] (by with_unfolding_all decide) c2r⟩

/-! ### Claim C8 — the pipeline is a deterministic function of its input -/

/-- Claim C8: the pipeline is a pure function of the transaction collection
and the minimum-support threshold — two runs on identical input produce
identical Rule Sets (same rules, same metric values, same order).  In this
embedding every stage is a mathematical function, so determinism is
definitional. -/
theorem pipeline_deterministic (tx1 tx2 : List (List String)) (ms1 ms2 : ℚ)
    (ht : tx1 = tx2) (hm : ms1 = ms2) :
    Analyzer.run tx1 ms1 = Analyzer.run tx2 ms2 := by
  rw [ht, hm]

/-- Witness for C8: two runs at a concrete input coincide. -/
theorem pipeline_deterministic_witness :
    Analyzer.run [["A", "B"], ["A"]] (1/100) =
      Analyzer.run [["A", "B"], ["A"]] (1/100) :=
  pipeline_deterministic [["A", "B"], ["A"]] [["A", "B"], ["A"]]
    (1/100) (1/100) rfl rfl

/-! ### Claim C9 — invalid min_support fails fast -/

/-- Claim C9: for an invalid threshold (min_support ≤ 0 or > 1) the pipeline
surfaces a configuration error to the caller at pipeline start; the error is
independent of the transaction data, i.e. raised before any mining work. -/
theorem invalid_min_support_fails_fast (tx : List (List String)) (ms : ℚ)
    (h : ms ≤ 0 ∨ 1 < ms) :
    Analyzer.run tx ms =
      Except.error
        "min_support must be a positive number within the interval (0, 1]" := by
  rw [Analyzer.run, if_pos h]

/-- Witness for C9 at min_support = −1. -/
theorem invalid_min_support_fails_fast_witness :
    Analyzer.run [["A"]] (-1) =
      Except.error
        "min_support must be a positive number within the interval (0, 1]" :=
  invalid_min_support_fails_fast [["A"]] (-1) (Or.inl (by norm_num))

/-! ### Claim C3 — matching, size bound and basket exclusion -/

/-- Probe rule for the C3 witness. -/
def c3rule : Rule :=
  { antecedents := ["A"], consequents := ["B"], antecedent_support := 1/2,
    consequent_support := 1/2, support := 2/5, confidence := 4/5,
    lift := 8/5, zhangs_metric := 1/2 }

/-- Claim C3: a rule contributes candidate rows iff its antecedent set is a
subset of the basket and its confidence meets the query's min_confidence
(the pool is exactly the non-basket consequent items of such rules); the
result has at most top_n rows; and no returned item is in the basket. -/
theorem recommend_matching_spec (rules : List Rule) (basket : List String)
    (n : ℕ) (mc : ℚ) :
    (∀ row : RecRow, row ∈ recCandidates rules basket mc ↔
        ∃ r ∈ rules, ((∀ i ∈ r.antecedents, i ∈ basket) ∧ mc ≤ r.confidence) ∧
          ∃ i, i ∈ r.consequents ∧ i ∉ basket ∧ row = mkCandidate r i) ∧
    (recommend rules basket n mc).length ≤ n ∧
    (∀ row ∈ recommend rules basket n mc, row.item ∉ basket) := by
  refine ⟨fun row => mem_recCandidates, ?_, ?_⟩
  · rcases recommend_cases rules basket n mc with h | h <;> rw [h]
    · simp
    · rw [List.length_take]
      exact min_le_left _ _
  · intro row hrow
    rcases recommend_cases rules basket n mc with h | h
    · rw [h] at hrow
      simp at hrow
    · rw [h] at hrow
      have h1 := List.take_subset _ _ hrow
      have h2 := (dedupByItem_sublist _).subset h1
      have h3 := mem_pandasSortDescConf.mp h2
      rcases mem_recCandidates.mp h3 with ⟨r, _, _, i, _, hnb, heq⟩
      rw [heq]
      exact hnb

/-- Witness for C3: concrete size bound through the theorem. -/
theorem recommend_matching_spec_witness :
    (recommend [c3rule] ["A"] 1 (1/2)).length ≤ 1 :=
  (recommend_matching_spec [c3rule] ["A"] 1 (1/2)).2.1

/-! ### Claim C4 — deduplication keeps a maximal-confidence occurrence,
ranking is confidence-descending, Scenario C -/

/-- Scenario C rule {"A"}→{"C"} with confidence 0.8. -/
def c4ruleAC : Rule :=
  { antecedents := ["A"], consequents := ["C"], antecedent_support := 1/2,
    consequent_support := 1/2, support := 2/5, confidence := 4/5,
    lift := 2, zhangs_metric := 1/2 }

/-- Scenario C rule {"B"}→{"C"} with confidence 0.6. -/
def c4ruleBC : Rule :=
  { antecedents := ["B"], consequents := ["C"], antecedent_support := 1/2,
    consequent_support := 1/2, support := 3/10, confidence := 3/5,
    lift := 2, zhangs_metric := 1/4 }

/-- Scenario C rule {"A","B"}→{"D"} with confidence 0.9. -/
def c4ruleABD : Rule :=
  { antecedents := ["A", "B"], consequents := ["D"],
    antecedent_support := 1/2, consequent_support := 1/2, support := 9/20,
    confidence := 9/10, lift := 2, zhangs_metric := 3/4 }

/-- Scenario C result row for item "D" at confidence 0.9. -/
def c4rowD : RecRow :=
  { item := "D", confidence := 9/10, lift := 2, zhangs_metric := 3/4,
    rule := (["A", "B"], ["D"]) }

/-- Scenario C result row for item "C" at confidence 0.8. -/
def c4rowC : RecRow :=
  { item := "C", confidence := 4/5, lift := 2, zhangs_metric := 1/2,
    rule := (["A"], ["C"]) }

/-- Claim C4: each item appears at most once in a recommendation result;
rows are ordered by confidence descending; the kept occurrence of an item
has maximal (rounded) confidence among all matching rules recommending it;
and Scenario C returns [D at 0.9, C at 0.8]. -/
theorem recommend_dedup_ranking :
    (∀ (rules : List Rule) (basket : List String) (n : ℕ) (mc : ℚ),
        (recommend rules basket n mc).Pairwise (fun a b => a.item ≠ b.item)) ∧
    (∀ (rules : List Rule) (basket : List String) (n : ℕ) (mc : ℚ),
        (recommend rules basket n mc).Pairwise
          (fun a b => b.confidence ≤ a.confidence)) ∧
    (∀ (rules : List Rule) (basket : List String) (n : ℕ) (mc : ℚ),
        ∀ row ∈ recommend rules basket n mc, ∀ r ∈ rules,
          (∀ i ∈ r.antecedents, i ∈ basket) → mc ≤ r.confidence →
          row.item ∈ r.consequents →
          round4 r.confidence ≤ row.confidence) ∧
    recommend [c4ruleAC, c4ruleBC, c4ruleABD] ["A", "B"] 2 (1/2) =
      [c4rowD, c4rowC] := by
  refine ⟨?_, ?_, ?_, by with_unfolding_all decide⟩
  · intro rules basket n mc
    rcases recommend_cases rules basket n mc with h | h <;> rw [h]
    · simp
    · exact List.Pairwise.sublist (List.take_sublist _ _)
        (dedupByItem_pairwise _)
  · intro rules basket n mc
    rcases recommend_cases rules basket n mc with h | h <;> rw [h]
    · simp
    · exact List.Pairwise.sublist
        ((List.take_sublist _ _).trans (dedupByItem_sublist _))
        (pandasSortDescConf_pairwise _)
  · intro rules basket n mc row hrow r hr hsub hconf hmem
    rcases recommend_cases rules basket n mc with h | h
    · rw [h] at hrow
      simp at hrow
    · rw [h] at hrow
      have hdedup := List.take_subset _ _ hrow
      have hrowc := mem_pandasSortDescConf.mp ((dedupByItem_sublist _).subset hdedup)
      rcases mem_recCandidates.mp hrowc with ⟨r2, _, _, i, _, hnb, heq⟩
      have hitem : row.item ∉ basket := by
        rw [heq]
        exact hnb
      have hcand : mkCandidate r row.item ∈
          pandasSortDescConf (recCandidates rules basket mc) :=
        mem_pandasSortDescConf.mpr
          (mem_recCandidates.mpr ⟨r, hr, ⟨hsub, hconf⟩, row.item, hmem, hitem, rfl⟩)
      exact dedupByItem_max _ (pandasSortDescConf_pairwise _) hdedup hcand rfl

/-- Witness for C4: the kept Scenario C occurrence of "C" dominates the
rounded confidence of the duplicate-loser rule {"B"}→{"C"}. -/
theorem recommend_dedup_ranking_witness :
    round4 c4ruleBC.confidence ≤ c4rowC.confidence :=
  recommend_dedup_ranking.2.2.1 [c4ruleAC, c4ruleBC, c4ruleABD] ["A", "B"] 2
    (1/2) c4rowC (by with_unfolding_all decide) c4ruleBC
    (by with_unfolding_all decide) (by with_unfolding_all decide)
    (by with_unfolding_all decide) (by with_unfolding_all decide)

/-! ### Claim C7 — the three no-recommendation cases return the same
empty value -/

/-- Probe rule for the C7 witness (matches no basket containing only "Z"). -/
def c7rule : Rule :=
  { antecedents := ["X"], consequents := ["Y"], antecedent_support := 1/2,
    consequent_support := 1/2, support := 1/2, confidence := 1,
    lift := 2, zhangs_metric := 1/2 }

/-- Claim C7: an empty basket, an empty rule set, and no rule matching the
basket at the query's min_confidence each yield the same empty result value
(the total function returns `[]` in all three cases, so the cases are
indistinguishable by return value and no error is raised). -/
theorem recommend_empty_cases :
    (∀ (rules : List Rule) (n : ℕ) (mc : ℚ), recommend rules [] n mc = []) ∧
    (∀ (basket : List String) (n : ℕ) (mc : ℚ),
        recommend [] basket n mc = []) ∧
    (∀ (rules : List Rule) (basket : List String) (n : ℕ) (mc : ℚ),
        rules.filter (ruleMatches basket mc) = [] →
        recommend rules basket n mc = []) := by
  refine ⟨fun rules n mc => rfl, ?_, ?_⟩
  · intro basket n mc
    by_cases hb : basket.isEmpty <;> simp [recommend, hb]
  · intro rules basket n mc h
    by_cases hb : basket.isEmpty <;> simp [recommend, hb, h]

/-- Witness for C7: a rule whose antecedent is outside the basket matches
nothing, and the query returns the empty result. -/
theorem recommend_empty_cases_witness :
    recommend [c7rule] ["Z"] 5 (1/2) = [] :=
  recommend_empty_cases.2.2 [c7rule] ["Z"] 5 (1/2)
    (by with_unfolding_all decide)

/-! ### Claim C5 — sort order of the final Rule Set -/

/-- Transaction collection whose two generated rules tie on Zhang's
metric. -/
def c5tx : List (List String) :=
  [["A", "B"], ["A", "B"], ["A"], ["B"], [], []]

/-- The rule {"A"}→{"B"} mined from `c5tx`. -/
def c5ruleAB : Rule :=
  { antecedents := ["A"], consequents := ["B"], antecedent_support := 1/2,
    consequent_support := 1/2, support := 1/3, confidence := 2/3,
    lift := 4/3, zhangs_metric := 1/2 }

/-- The rule {"B"}→{"A"} mined from `c5tx`. -/
def c5ruleBA : Rule :=
  { antecedents := ["B"], consequents := ["A"], antecedent_support := 1/2,
    consequent_support := 1/2, support := 1/3, confidence := 2/3,
    lift := 4/3, zhangs_metric := 1/2 }

/-- Counterexample to C5 as stated: on `c5tx` the generated rules enter the
sort in the order [{"A"}→{"B"}, {"B"}→{"A"}] with equal association
strength, yet the final Rule Set holds them in the reversed order — the
descending pandas sort (default quicksort kind: ascending argsort, then
reversal) does not keep the relative order of tied rules. -/
theorem rule_set_sort_not_stable :
    addZhangsMetric (generateRules (apriori c5tx (1/100))) =
      [c5ruleAB, c5ruleBA] ∧
    c5ruleAB.zhangs_metric = c5ruleBA.zhangs_metric ∧
    c5ruleAB ≠ c5ruleBA ∧
    Analyzer.run c5tx (1/100) = Except.ok [c5ruleBA, c5ruleAB] := by
  with_unfolding_all decide

/-- Claim C5 (amended): the final Rule Set is sorted by association
strength in non-increasing order; the sort is however not stable — rules
with equal association strength can appear in reversed relative order (see
the counterexample). -/
theorem rule_set_sorted_desc (tx : List (List String)) (ms : ℚ)
    (final : List Rule) (h : Analyzer.run tx ms = Except.ok final) :
    final.Pairwise (fun a b => b.zhangs_metric ≤ a.zhangs_metric) := by
  rw [run_ok h]
  exact sortByZhangDesc_pairwise _

/-- Witness for the amended C5 at a concrete run. -/
theorem rule_set_sorted_desc_witness :
    Analyzer.run c5tx (1/100) = Except.ok [c5ruleBA, c5ruleAB] ∧
      ([c5ruleBA, c5ruleAB] : List Rule).Pairwise
        (fun a b => b.zhangs_metric ≤ a.zhangs_metric) :=
  ⟨by with_unfolding_all decide,
   rule_set_sorted_desc c5tx (1/100) [c5ruleBA, c5ruleAB]
     (by with_unfolding_all decide)⟩

/-! ### Claim C6 — empty frequent-itemset collection propagates as empty -/

/-- Claim C6: with a valid min_support that excludes every single item, the
frequent-itemset collection is empty, every downstream stage maps the empty
collection to an empty collection, and the whole run completes with an
empty Rule Set (`Except.ok []`, no error). -/
theorem empty_itemsets_pipeline (tx : List (List String)) (ms : ℚ)
    (hms0 : 0 < ms) (hms1 : ms ≤ 1)
    (hsingles : ∀ i ∈ allItems tx, itemsetSupport tx [i] < ms) :
    apriori tx ms = [] ∧
    generateRules [] = [] ∧
    addZhangsMetric [] = [] ∧
    filterRules [] = [] ∧
    sortByZhangDesc [] = [] ∧
    Analyzer.run tx ms = Except.ok [] := by
  have hap : apriori tx ms = [] := by
    rw [apriori]
    rw [List.filter_eq_nil_iff.mpr ?_]
    · rfl
    · intro s hs
      simp only [Bool.and_eq_true, Bool.not_eq_eq_eq_not, Bool.not_true,
        decide_eq_true_eq, not_and]
      intro hne hle
      cases s with
      | nil => simp at hne
      | cons i rest =>
        have hsl : (i :: rest).Sublist (allItems tx) := List.mem_sublists.mp hs
        have hi : i ∈ allItems tx := hsl.subset (List.mem_cons_self i rest)
        have hlt := hsingles i hi
        have hmono : itemsetSupport tx (i :: rest) ≤ itemsetSupport tx [i] := by
          rw [itemsetSupport, itemsetSupport]
          split
          · exact le_refl 0
          · rename_i hlen
            have hcount : tx.countP
                  (fun t => (i :: rest).all (fun j => decide (j ∈ t))) ≤
                tx.countP (fun t => [i].all (fun j => decide (j ∈ t))) := by
              refine List.countP_mono_left (fun t _ ht => ?_)
              simp only [List.all_eq_true, decide_eq_true_eq] at ht ⊢
              exact fun j hj => by
                cases List.mem_singleton.mp hj
                exact ht i (List.mem_cons_self i rest)
            have hpos : (0 : ℚ) < (tx.length : ℚ) := by
              exact_mod_cast Nat.pos_of_ne_zero hlen
            exact div_le_div_of_nonneg_right
              (by exact_mod_cast hcount) (le_of_lt hpos)
        exact absurd hle (not_le.mpr (lt_of_le_of_lt hmono hlt))
  refine ⟨hap, rfl, rfl, rfl, rfl, ?_⟩
  rw [Analyzer.run, if_neg, hap]
  · rfl
  · rintro (h | h)
    · exact absurd h (not_le.mpr hms0)
    · exact absurd h (not_lt.mpr hms1)

/-- Witness for C6: a matrix with one item in half the transactions and
min_support 1. -/
theorem empty_itemsets_pipeline_witness :
    (0 : ℚ) < 1 ∧ (1 : ℚ) ≤ 1 ∧
      (∀ i ∈ allItems [["A"], []], itemsetSupport [["A"], []] [i] < 1) ∧
      Analyzer.run [["A"], []] 1 = Except.ok [] :=
  ⟨by norm_num, le_refl 1, by with_unfolding_all decide,
   (empty_itemsets_pipeline [["A"], []] 1 (by norm_num) (le_refl 1)
     (by with_unfolding_all decide)).2.2.2.2.2⟩

/-! ### Claim C10 — rounding to 4 decimal places before ranking and
deduplication -/

/-- Rule {"A"}→{"C"} with confidence 0.60004, which rounds to 0.6. -/
def c10r1 : Rule :=
  { antecedents := ["A"], consequents := ["C"], antecedent_support := 1/2,
    consequent_support := 1/2, support := 2/5, confidence := 15001/25000,
    lift := 2, zhangs_metric := 1/2 }

/-- Rule {"B"}→{"C"} with confidence exactly 0.6. -/
def c10r2 : Rule :=
  { antecedents := ["B"], consequents := ["C"], antecedent_support := 1/2,
    consequent_support := 1/2, support := 3/10, confidence := 3/5,
    lift := 2, zhangs_metric := 1/4 }

/-- The single row returned for basket {"A","B"} against `c10r1`, `c10r2`:
after rounding both occurrences of "C" carry confidence 0.6, and the kept
occurrence originates from `c10r2` even though `c10r1` has the larger
unrounded confidence — the dedup decision is made on rounded values. -/
def c10row : RecRow :=
  { item := "C", confidence := 3/5, lift := 2, zhangs_metric := 1/4,
    rule := (["B"], ["C"]) }

/-- Claim C10: every returned row carries the originating rule's
confidence, lift and zhangs_metric rounded to 4 decimal places; the
ranking is by the rounded confidence; and the dedup choice is decided by
the rounded values, not the originals — two rules whose confidences differ
but round alike tie, and the kept occurrence need not be the one with the
larger original confidence. -/
theorem recommend_rounded_values :
    (∀ (rules : List Rule) (basket : List String) (n : ℕ) (mc : ℚ),
        ∀ row ∈ recommend rules basket n mc,
          ∃ r ∈ rules,
            ((∀ i ∈ r.antecedents, i ∈ basket) ∧ mc ≤ r.confidence) ∧
            row.item ∈ r.consequents ∧
            row.confidence = round4 r.confidence ∧
            row.lift = round4 r.lift ∧
            row.zhangs_metric = round4 r.zhangs_metric) ∧
    (∀ (rules : List Rule) (basket : List String) (n : ℕ) (mc : ℚ),
        (recommend rules basket n mc).Pairwise
          (fun a b => b.confidence ≤ a.confidence)) ∧
    (round4 c10r1.confidence = round4 c10r2.confidence ∧
      c10r2.confidence < c10r1.confidence ∧
      recommend [c10r1, c10r2] ["A", "B"] 5 (1/2) = [c10row]) := by
  refine ⟨?_, ?_, by with_unfolding_all decide⟩
  · intro rules basket n mc row hrow
    rcases recommend_cases rules basket n mc with h | h
    · rw [h] at hrow
      simp at hrow
    · rw [h] at hrow
      have h1 := List.take_subset _ _ hrow
      have h2 := (dedupByItem_sublist _).subset h1
      have h3 := mem_pandasSortDescConf.mp h2
      rcases mem_recCandidates.mp h3 with ⟨r, hr, hm, i, hi, _, heq⟩
      subst heq
      exact ⟨r, hr, hm, hi, rfl, rfl, rfl⟩
  · intro rules basket n mc
    rcases recommend_cases rules basket n mc with h | h <;> rw [h]
    · simp
    · exact List.Pairwise.sublist
        ((List.take_sublist _ _).trans (dedupByItem_sublist _))
        (pandasSortDescConf_pairwise _)

/-- Witness for C10: the returned Scenario row decomposes through the
theorem at the concrete query. -/
theorem recommend_rounded_values_witness :
    ∃ r ∈ [c10r1, c10r2],
      ((∀ i ∈ r.antecedents, i ∈ (["A", "B"] : List String)) ∧
        (1 : ℚ)/2 ≤ r.confidence) ∧
      c10row.item ∈ r.consequents ∧
      c10row.confidence = round4 r.confidence ∧
      c10row.lift = round4 r.lift ∧
      c10row.zhangs_metric = round4 r.zhangs_metric :=
  recommend_rounded_values.1 [c10r1, c10r2] ["A", "B"] 5 (1/2) c10row
    (by with_unfolding_all decide)
